import Mathlib

/-!
Verification development for the transaction construction, encoding and
signing pipeline of the jellyfishsdk repository.

Source-embedded definitions mirror the TypeScript in the repository
(`GenesisCoinbaseBot.ts` providers, NestJS environment validation schema).
Definitions whose doc comment starts with `Modelled from the spec:` embed
components of the repository whose code is not part of the supplied slice
(the instruction codec, the script serializer and the transaction builder);
they follow the specification text.
-/

namespace Jellyfish

/-! ## Byte-level primitives (compact-size varints, little-endian integers) -/

/-- Modelled from the spec: fixed-width little-endian byte encoding of a
natural number, `w` bytes (§4.1 "fixed-width little-endian integers"). -/
def encodeLE : Nat → Nat → List Nat
  | 0, _ => []
  | w + 1, n => n % 256 :: encodeLE w (n / 256)

/-- Modelled from the spec: little-endian decoder, reading exactly `w` bytes
from the stream and returning the value together with the rest. -/
def decodeLE : Nat → List Nat → Option (Nat × List Nat)
  | 0, bs => some (0, bs)
  | _ + 1, [] => none
  | w + 1, b :: bs =>
      match decodeLE w bs with
      | none => none
      | some (n, r) => some (b + 256 * n, r)

/-- Modelled from the spec: compact-size variable-length unsigned integer
(1/3/5/9-byte forms selected by value-range thresholds, §4.1). -/
def encodeVarUInt (n : Nat) : List Nat :=
  if n < 0xfd then [n]
  else if n < 0x10000 then 0xfd :: encodeLE 2 n
  else if n < 0x100000000 then 0xfe :: encodeLE 4 n
  else 0xff :: encodeLE 8 n

/-- Modelled from the spec: compact-size variable-length integer decoder. -/
def decodeVarUInt : List Nat → Option (Nat × List Nat)
  | [] => none
  | b :: rest =>
      if b < 0xfd then some (b, rest)
      else if b = 0xfd then decodeLE 2 rest
      else if b = 0xfe then decodeLE 4 rest
      else decodeLE 8 rest

/-- Modelled from the spec: take exactly `w` bytes from the stream,
failing if fewer are available. -/
def takeExact : Nat → List Nat → Option (List Nat × List Nat)
  | 0, bs => some ([], bs)
  | _ + 1, [] => none
  | w + 1, b :: bs =>
      match takeExact w bs with
      | none => none
      | some (l, r) => some (b :: l, r)

/-- Modelled from the spec: length-prefixed byte string (§4.1
"length-prefixed byte strings for text and scripts"). -/
def encodeBytes (l : List Nat) : List Nat :=
  encodeVarUInt l.length ++ l

/-- Modelled from the spec: decoder for a length-prefixed byte string. -/
def decodeBytes (bs : List Nat) : Option (List Nat × List Nat) :=
  match decodeVarUInt bs with
  | none => none
  | some (n, r) => takeExact n r

/-! ## Instruction codec (spec §4.1) -/

/-- Modelled from the spec: a representative slice of the tagged instruction
variant (§3 "Instruction": the full codec is not part of the supplied source
slice). Field records follow the interfaces used by the repository callers
(`VoteGov`, `CreateToken`, `CreateLoanScheme`, `CreateMasternode`). -/
inductive Instruction : Type
  | vote (voteDecision : Nat) (proposalId : List Nat) (masternodeId : List Nat)
  | createToken (symbol : List Nat) (tname : List Nat) (decimal : Nat)
      (limit : Nat) (isDAT : Bool) (tradeable : Bool) (mintable : Bool)
  | setLoanScheme ( ratio : Nat) (rate : Nat) (identifier : List Nat)
      (update : Nat)
  | createMasternode (operatorType : Nat) (operatorPubKeyHash : List Nat)
  deriving Repr, DecidableEq

/-- Modelled from the spec: the reserved selector byte of each instruction
kind (§3 "Each kind has exactly one reserved selector byte"). -/
def Instruction.selector : Instruction → Nat
  | .vote _ _ _ => 0x4f
  | .createToken _ _ _ _ _ _ _ => 0x54
  | .setLoanScheme _ _ _ _ => 0x4c
  | .createMasternode _ _ => 0x43

/-- Modelled from the spec: one-byte boolean field. -/
def encodeBool (b : Bool) : List Nat := [if b then 1 else 0]

/-- Modelled from the spec: decoder for a one-byte boolean field. -/
def decodeBool : List Nat → Option (Bool × List Nat)
  | [] => none
  | b :: rest => some (decide (b ≠ 0), rest)

/-- Modelled from the spec: instruction encoder (§4.1 `encode`): a one-byte
selector followed by the fields in declared order, using compact-size
varints, fixed-width little-endian integers, length-prefixed byte strings
and 64-bit integer amounts in minor units. -/
def encodeInstruction : Instruction → List Nat
  | .vote d pid mid => 0x4f :: d :: (pid ++ mid)
  | .createToken sym nm dec lim dat tr mi =>
      0x54 :: (encodeBytes sym ++ (encodeBytes nm ++ (dec ::
        (encodeLE 8 lim ++ (encodeBool dat ++ (encodeBool tr ++ encodeBool mi))))))
  | .setLoanScheme ra rt ident up =>
      0x4c :: (encodeLE 4 ra ++ (encodeLE 8 rt ++ (encodeBytes ident ++ encodeLE 8 up)))
  | .createMasternode ty pkh => 0x43 :: ty :: pkh

/-- Modelled from the spec: codec-level failures (§4.1 `decode`). -/
inductive CodecErr : Type
  | unsupportedInstruction
  | malformedInstruction
  deriving Repr, DecidableEq

/-- Modelled from the spec: instruction decoder (§4.1 `decode`): dispatches
on the selector byte, fails with `UnsupportedInstruction` for unregistered
selectors and `MalformedInstruction` for truncated or invalid field data;
the whole byte string must be consumed. -/
def decodeInstruction (bs : List Nat) : Except CodecErr Instruction :=
  match bs with
  | [] => .error .malformedInstruction
  | sel :: rest =>
      if sel = 0x4f then
        match rest with
        | [] => .error .malformedInstruction
        | d :: r1 =>
            match takeExact 32 r1 with
            | none => .error .malformedInstruction
            | some (pid, r2) =>
                match takeExact 32 r2 with
                | none => .error .malformedInstruction
                | some (mid, r3) =>
                    if r3 = [] then .ok (.vote d pid mid)
                    else .error .malformedInstruction
      else if sel = 0x54 then
        match decodeBytes rest with
        | none => .error .malformedInstruction
        | some (sym, r1) =>
            match decodeBytes r1 with
            | none => .error .malformedInstruction
            | some (nm, r2) =>
                match r2 with
                | [] => .error .malformedInstruction
                | dec :: r3 =>
                    match decodeLE 8 r3 with
                    | none => .error .malformedInstruction
                    | some (lim, r4) =>
                        match decodeBool r4 with
                        | none => .error .malformedInstruction
                        | some (dat, r5) =>
                            match decodeBool r5 with
                            | none => .error .malformedInstruction
                            | some (tr, r6) =>
                                match decodeBool r6 with
                                | none => .error .malformedInstruction
                                | some (mi, r7) =>
                                    if r7 = [] then
                                      .ok (.createToken sym nm dec lim dat tr mi)
                                    else .error .malformedInstruction
      else if sel = 0x4c then
        match decodeLE 4 rest with
        | none => .error .malformedInstruction
        | some (ra, r1) =>
            match decodeLE 8 r1 with
            | none => .error .malformedInstruction
            | some (rt, r2) =>
                match decodeBytes r2 with
                | none => .error .malformedInstruction
                | some (ident, r3) =>
                    match decodeLE 8 r3 with
                    | none => .error .malformedInstruction
                    | some (up, r4) =>
                        if r4 = [] then .ok (.setLoanScheme ra rt ident up)
                        else .error .malformedInstruction
      else if sel = 0x43 then
        match rest with
        | [] => .error .malformedInstruction
        | ty :: r1 =>
            match takeExact 20 r1 with
            | none => .error .malformedInstruction
            | some (pkh, r2) =>
                if r2 = [] then .ok (.createMasternode ty pkh)
                else .error .malformedInstruction
      else .error .unsupportedInstruction

/-- Modelled from the spec: representability of an instruction — every
byte-valued field fits a byte, fixed-size hashes have their declared size
and amounts fit 64 bits. -/
def Instruction.Representable : Instruction → Prop
  | .vote d pid mid => d < 256 ∧ pid.length = 32 ∧ mid.length = 32
  | .createToken sym nm dec lim _ _ _ =>
      sym.length < 2 ^ 64 ∧ nm.length < 2 ^ 64 ∧ dec < 256 ∧ lim < 2 ^ 64
  | .setLoanScheme ra rt ident up =>
      ra < 2 ^ 32 ∧ rt < 2 ^ 64 ∧ ident.length < 2 ^ 64 ∧ up < 2 ^ 64
  | .createMasternode ty pkh => ty < 256 ∧ pkh.length = 20

instance (x : Instruction) : Decidable x.Representable := by
  cases x <;> simp [Instruction.Representable] <;> infer_instance

/-! ## Script assembler (spec §4.2; opcode stacks as in `GenesisCoinbaseBot.ts`) -/

/-- Script opcodes as used by the repository source: `OP_0`, `OP_RETURN`
and data pushes (`OP_PUSHDATA`). A script is an ordered opcode stack. -/
inductive Opcode : Type
  | op0
  | opReturn
  | pushData (data : List Nat)
  deriving Repr, DecidableEq

/-- Modelled from the spec: byte prefix of a data push (the length prefix
preceding pushed data in the serialized script). -/
def pushLen (n : Nat) : List Nat :=
  if n < 0x4c then [n]
  else if n < 0x100 then [0x4c, n]
  else if n < 0x10000 then 0x4d :: encodeLE 2 n
  else 0x4e :: encodeLE 4 n

/-- Modelled from the spec: byte serialization of a single opcode
(the script serializer is not part of the supplied source slice). -/
def Opcode.toBytes : Opcode → List Nat
  | .op0 => [0x00]
  | .opReturn => [0x6a]
  | .pushData d => pushLen d.length ++ d

/-- Modelled from the spec: serialization of an opcode stack to the raw
concatenated byte stream (§4.2 `serialize`, without the outer length
prefix added by the container codec). -/
def scriptToBytes (s : List Opcode) : List Nat :=
  (s.map Opcode.toBytes).flatten

/-- Modelled from the spec: `embed(instructionBytes)` — a provably
unspendable data-carrying script, the zero-value marker opcode `OP_RETURN`
followed by the pushed instruction payload (§4.2). -/
def embedScript (payload : List Nat) : List Opcode :=
  [.opReturn, .pushData payload]

/-- Source-embedded from `CoinbaseEllipticPairProvider.script` in
`GenesisCoinbaseBot.ts`: the P2WPKH locking script stack
`[OP_0, OP_PUSHDATA(pubKeyHash)]` for a given 20-byte public-key hash. -/
def CoinbaseEllipticPairProvider.script (pubKeyHash : List Nat) : List Opcode :=
  [.op0, .pushData pubKeyHash]

/-! ## Transaction builder (spec §4.6, modelled from the spec:
the `P2WPKHTransactionBuilder` source is not part of the supplied slice) -/

/-- Modelled from the spec: a spendable output entering the builder, its
value an exact integer count of minor units (§3 SpendableOutput). -/
structure SpendableOutput : Type where
  txid : List Nat
  vout : Nat
  value : Int
  lockScript : List Opcode
  deriving Repr, DecidableEq

/-- Modelled from the spec: key pair resolved for a selected output. -/
structure KeyPair : Type where
  privKey : List Nat
  pubKey : List Nat
  deriving Repr, DecidableEq

/-- Modelled from the spec: transaction input reference (§3 TxInput). -/
structure TxIn : Type where
  txid : List Nat
  vout : Nat
  sequence : Nat
  deriving Repr, DecidableEq

/-- Modelled from the spec: transaction output (§3 TxOutput). -/
structure TxOutput : Type where
  value : Int
  script : List Opcode
  deriving Repr, DecidableEq

/-- Modelled from the spec: transaction container (§3 Transaction); each
witness is a per-input stack of byte strings. -/
structure Transaction : Type where
  version : Nat
  inputs : List TxIn
  outputs : List TxOutput
  witnesses : List (List (List Nat))
  lockTime : Nat
  deriving Repr, DecidableEq

/-- Modelled from the spec: builder failure modes (§4.6). -/
inductive BuildErr : Type
  | insufficientFunds
  | signingFailure
  | unsupportedInstruction
  deriving Repr, DecidableEq

/-- Modelled from the spec: a successful build — the signed transaction,
the selected inputs (in selection order) and the exact fee paid. -/
structure BuildResult : Type where
  tx : Transaction
  selected : List SpendableOutput
  fee : Int
  deriving Repr, DecidableEq

/-- Modelled from the spec: input selection loop (§4.6 step 3) —
accumulate provider outputs until the cumulative value covers the required
funding plus the fee re-estimated for the current input count; the
iteration is bounded by the provider's (finite) output list and fails when
it is exhausted, which covers the zero-output case. -/
def selectLoop (fee : Nat → Int) (required : Int) :
    List SpendableOutput → List SpendableOutput → Int →
      Option (List SpendableOutput)
  | [], _, _ => none
  | p :: rest, acc, sum =>
      let acc2 := acc ++ [p]
      let sum2 := sum + p.value
      if required + fee acc2.length ≤ sum2 then some acc2
      else selectLoop fee required rest acc2 sum2

/-- Modelled from the spec: per-input signing (§4.6 step 6) — resolve each
selected output's key, sign, and attach a witness stack of signature and
public key at the input's index; key-resolution failure aborts the build
with `SigningFailure`. -/
def signAll (keyFor : SpendableOutput → Option KeyPair)
    (sigOf : SpendableOutput → KeyPair → List Nat) :
    List SpendableOutput → Except BuildErr (List (List (List Nat)))
  | [] => .ok []
  | p :: ps =>
      match keyFor p with
      | none => .error .signingFailure
      | some k =>
          match signAll keyFor sigOf ps with
          | .error e => .error e
          | .ok ws => .ok ([sigOf p k, k.pubKey] :: ws)

/-- Modelled from the spec: the input reference built from a selected
spendable output. -/
def SpendableOutput.toTxIn (p : SpendableOutput) : TxIn :=
  { txid := p.txid, vout := p.vout, sequence := 0xffffffff }

/-- Modelled from the spec: the zero-value embedded-instruction output of a
build request — present exactly when the operation is not a plain transfer
(§4.6 step 1). -/
def embedOutputs : Option Instruction → List TxOutput
  | some i => [{ value := 0, script := embedScript (encodeInstruction i) }]
  | none => []

/-- Modelled from the spec: the transaction builder state machine (§4.6):
embed the encoded instruction as a zero-value first output, select inputs
under the fee constraint, assemble outputs with a change output omitted
below the dust threshold (the remainder absorbed into the fee), and sign
every input; the two terminal states are a fully signed transaction or a
typed failure. -/
def build (fee : Nat → Int) (instr : Option Instruction)
    (transfers : List TxOutput) (changeScript : List Opcode) (dust : Int)
    (keyFor : SpendableOutput → Option KeyPair)
    (sigOf : SpendableOutput → KeyPair → List Nat)
    (prevouts : List SpendableOutput) : Except BuildErr BuildResult :=
  let embedOuts : List TxOutput := embedOutputs instr
  let transferTotal : Int := (transfers.map TxOutput.value).sum
  match selectLoop fee transferTotal prevouts [] 0 with
  | none => .error .insufficientFunds
  | some sel =>
      let inSum : Int := (sel.map SpendableOutput.value).sum
      let estFee : Int := fee sel.length
      let change : Int := inSum - transferTotal - estFee
      let outs : List TxOutput :=
        embedOuts ++ transfers ++
          (if dust ≤ change then [{ value := change, script := changeScript }]
           else [])
      let actualFee : Int := if dust ≤ change then estFee else estFee + change
      match signAll keyFor sigOf sel with
      | .error e => .error e
      | .ok ws =>
          .ok { tx := { version := 4, inputs := sel.map SpendableOutput.toTxIn,
                        outputs := outs, witnesses := ws, lockTime := 0 },
                selected := sel, fee := actualFee }

/-- Modelled from the spec: sum of the selected input values of a build
result, in minor units. -/
def BuildResult.inputTotal (r : BuildResult) : Int :=
  (r.selected.map SpendableOutput.value).sum

/-- Modelled from the spec: sum of the output values of a transaction, in
minor units. -/
def Transaction.outputTotal (tx : Transaction) : Int :=
  (tx.outputs.map TxOutput.value).sum

/-- Modelled from the spec: a fully signed transaction — the witness list
is index-aligned with the input list and every witness stack is populated
(§3 invariant). -/
def Transaction.FullySigned (tx : Transaction) : Prop :=
  tx.witnesses.length = tx.inputs.length ∧ ∀ w ∈ tx.witnesses, w ≠ []

/-- Modelled from the spec: a fully unsigned transaction — every witness
stack is empty (§3 invariant). -/
def Transaction.FullyUnsigned (tx : Transaction) : Prop :=
  ∀ w ∈ tx.witnesses, w = []

/-! ## Source-embedded providers (`GenesisCoinbaseBot.ts`) -/

/-- The result shape of `apiClient.mining.estimateSmartFee`, as consumed by
`CoinbaseFeeRateProvider.estimate`: an optional fee rate (in coins per
kilobyte, an exact decimal modelled as a rational) and an optional list of
error strings. -/
structure SmartFeeEstimation : Type where
  feerate : Option Rat
  errors : Option (List String)

/-- The fixed fallback fee rate `new BigNumber('0.00005000')` of
`CoinbaseFeeRateProvider.estimate`. -/
def defaultFeeRate : Rat := 5 / 100000

/-- Source-embedded from `CoinbaseFeeRateProvider.estimate`: whether the
node reported errors (`result.errors !== undefined && result.errors.length > 0`). -/
def SmartFeeEstimation.hasErrors (r : SmartFeeEstimation) : Bool :=
  match r.errors with
  | some es => es.length > 0
  | none => false

/-- Source-embedded from `CoinbaseFeeRateProvider.estimate` in
`GenesisCoinbaseBot.ts`: returns the fixed default rate when the node
reports no estimate or any error, else the reported rate; the function is
total — no error is propagated. -/
def CoinbaseFeeRateProvider.estimate (r : SmartFeeEstimation) : Rat :=
  match r.feerate with
  | none => defaultFeeRate
  | some f => if r.hasErrors then defaultFeeRate else f

/-- The shape of one `listUnspent` result row consumed by
`CoinbasePrevoutProvider.mapPrevout`: amount is the exact decimal coin
amount reported by the node (a `BigNumber`, modelled as a rational). -/
structure Utxo : Type where
  txid : List Nat
  vout : Nat
  amount : Rat
  tokenId : Nat

/-- The `Prevout` record produced by `CoinbasePrevoutProvider.mapPrevout`:
its value is the `BigNumber` built from the utxo amount (a rational). -/
structure Prevout : Type where
  txid : List Nat
  vout : Nat
  value : Rat
  script : List Opcode
  tokenId : Nat

/-- Source-embedded from `CoinbasePrevoutProvider.mapPrevout` in
`GenesisCoinbaseBot.ts`: maps a node utxo row to a `Prevout`, with
`value := new BigNumber(utxo.amount)` and the P2WPKH script stack
`[OP_0, OP_PUSHDATA(HASH160(pubKey))]`; `h160` stands for the external
`HASH160` function. -/
def CoinbasePrevoutProvider.mapPrevout (h160 : List Nat → List Nat)
    (utxo : Utxo) (pubKey : List Nat) : Prevout :=
  { txid := utxo.txid, vout := utxo.vout, value := utxo.amount,
    script := [.op0, .pushData (h160 pubKey)], tokenId := utxo.tokenId }

/-- The wallet query issued by both `collect` and `all`:
`listUnspent(1, 9999999, { addresses: [address] })`. -/
structure WalletQuery : Type where
  minConf : Nat
  maxConf : Nat
  addresses : List String

/-- Source-embedded from `CoinbasePrevoutProvider.collect` in
`GenesisCoinbaseBot.ts`: derives the bech32 address from the elliptic
pair's public key, lists unspent outputs for it with
`listUnspent(1, 9999999, { addresses: [address] })` and maps every row
through `mapPrevout`; the `minBalance` argument is never read. `wallet`
stands for the external node query and `bech32` for
`Bech32.fromPubKey(pubKey, 'bcrt')`. -/
def CoinbasePrevoutProvider.collect (wallet : WalletQuery → List Utxo)
    (bech32 : List Nat → String) (h160 : List Nat → List Nat)
    (pubKey : List Nat) (minBalance : Rat) : List Prevout :=
  (wallet { minConf := 1, maxConf := 9999999, addresses := [bech32 pubKey] }).map
    (fun utxo => CoinbasePrevoutProvider.mapPrevout h160 utxo pubKey)

/-- Source-embedded from `CoinbasePrevoutProvider.all` in
`GenesisCoinbaseBot.ts`: lists unspent outputs for the signer's bech32
address with the same `listUnspent(1, 9999999, ...)` query and maps every
row through `mapPrevout`. -/
def CoinbasePrevoutProvider.all (wallet : WalletQuery → List Utxo)
    (bech32 : List Nat → String) (h160 : List Nat → List Nat)
    (pubKey : List Nat) : List Prevout :=
  (wallet { minConf := 1, maxConf := 9999999, addresses := [bech32 pubKey] }).map
    (fun utxo => CoinbasePrevoutProvider.mapPrevout h160 utxo pubKey)

/-! ## Source-embedded environment validation (`ENV_VALIDATION_SCHEMA`) -/

/-- Source-embedded from `ENV_VALIDATION_SCHEMA`: the admissible values of
`API_NETWORK` — `Joi.string().valid('regtest', 'testnet', 'mainnet')`. -/
def validNetworks : List String := ["regtest", "testnet", "mainnet"]

/-- Source-embedded from `ENV_VALIDATION_SCHEMA`: validation of the
`API_NETWORK` environment variable —
`Joi.string().valid('regtest', 'testnet', 'mainnet').default('regtest')`;
a missing variable takes the default, an inadmissible value is rejected. -/
def validateApiNetwork : Option String → Option String
  | none => some "regtest"
  | some s => if s ∈ validNetworks then some s else none

/-! ## Concrete build examples used by the witnesses -/

/-- A concrete spendable output worth 10.00000000 coins in minor units. -/
def examplePrevout : SpendableOutput :=
  { txid := List.replicate 32 0xaa, vout := 0, value := 1000000000,
    lockScript := [.op0, .pushData (List.replicate 20 3)] }

/-- A constant fee estimator of 0.00050000 coins in minor units. -/
def exampleFee : Nat → Int := fun _ => 50000

/-- A key resolver returning a fixed key pair for every output. -/
def exampleKeyFor : SpendableOutput → Option KeyPair :=
  fun _ => some { privKey := [1], pubKey := [2, 2] }

/-- A signature function returning a fixed byte string. -/
def exampleSigOf : SpendableOutput → KeyPair → List Nat := fun _ _ => [9, 9]

/-- A concrete vote instruction. -/
def exampleVote : Instruction :=
  .vote 1 (List.replicate 32 4) (List.replicate 32 5)

/-- A concrete change script. -/
def exampleChangeScript : List Opcode := [.op0, .pushData (List.replicate 20 3)]

/-- A concrete successful build request: no instruction, no transfers, a
dust threshold of 3000 minor units, one available prevout. -/
def exampleBuild : Except BuildErr BuildResult :=
  build exampleFee none [] exampleChangeScript 3000 exampleKeyFor exampleSigOf
    [examplePrevout]

/-- The result of `exampleBuild`, extracted for the witnesses. -/
def exampleResult : BuildResult :=
  match exampleBuild with
  | .ok r => r
  | .error _ =>
      { tx := { version := 0, inputs := [], outputs := [], witnesses := [],
                lockTime := 0 }, selected := [], fee := 0 }

/-- A concrete successful build request carrying the vote instruction. -/
def exampleBuildVote : Except BuildErr BuildResult :=
  build exampleFee (some exampleVote) [] exampleChangeScript 3000 exampleKeyFor
    exampleSigOf [examplePrevout]

/-- The result of `exampleBuildVote`, extracted for the witnesses. -/
def exampleResultVote : BuildResult :=
  match exampleBuildVote with
  | .ok r => r
  | .error _ =>
      { tx := { version := 0, inputs := [], outputs := [], witnesses := [],
                lockTime := 0 }, selected := [], fee := 0 }

/-- A concrete utxo row of 0.50000000 coins. -/
def exampleUtxoHalf : Utxo :=
  { txid := List.replicate 32 1, vout := 0, amount := 1 / 2, tokenId := 0 }

/-- A stand-in for the external HASH160 function, constant 20-byte digest. -/
def exampleH160 : List Nat → List Nat := fun _ => List.replicate 20 7

/-- A concrete 33-byte compressed public key stand-in. -/
def examplePubKey : List Nat := List.replicate 33 2

/-! ## Helper lemmas -/

theorem encodeLE_length (w n : Nat) : (encodeLE w n).length = w := by
  induction w generalizing n with
  | zero => rfl
  | succ w ih => simp [encodeLE, ih]

theorem decodeLE_encodeLE (w : Nat) (n : Nat) (rest : List Nat)
    (h : n < 256 ^ w) : decodeLE w (encodeLE w n ++ rest) = some (n, rest) := by
  induction w generalizing n with
  | zero =>
      have : n = 0 := Nat.lt_one_iff.mp (by simpa using h)
      simp [encodeLE, decodeLE, this]
  | succ w ih =>
      have hdiv : n / 256 < 256 ^ w := by
        apply Nat.div_lt_of_lt_mul
        calc n < 256 ^ (w + 1) := h
        _ = 256 * 256 ^ w := by ring
      simp [encodeLE, decodeLE, ih (n / 256) hdiv, Nat.mod_add_div]

theorem decodeVarUInt_encodeVarUInt (n : Nat) (rest : List Nat)
    (h : n < 2 ^ 64) :
    decodeVarUInt (encodeVarUInt n ++ rest) = some (n, rest) := by
  unfold encodeVarUInt
  by_cases h1 : n < 0xfd
  · simp [h1, decodeVarUInt]
  · by_cases h2 : n < 0x10000
    · have := decodeLE_encodeLE 2 n rest (by norm_num at h2 ⊢; omega)
      simp [h1, h2, decodeVarUInt, this]
    · by_cases h3 : n < 0x100000000
      · have := decodeLE_encodeLE 4 n rest (by norm_num at h3 ⊢; omega)
        simp [h1, h2, h3, decodeVarUInt, this]
      · have := decodeLE_encodeLE 8 n rest (by norm_num at h ⊢; omega)
        simp [h1, h2, h3, decodeVarUInt, this]

theorem takeExact_append (l rest : List Nat) :
    takeExact l.length (l ++ rest) = some (l, rest) := by
  induction l with
  | nil => rfl
  | cons b bs ih => simp [takeExact, ih]

theorem decodeBytes_encodeBytes (l rest : List Nat) (h : l.length < 2 ^ 64) :
    decodeBytes (encodeBytes l ++ rest) = some (l, rest) := by
  unfold encodeBytes decodeBytes
  rw [List.append_assoc, decodeVarUInt_encodeVarUInt l.length (l ++ rest) h]
  exact takeExact_append l rest

theorem decodeBool_encodeBool (b : Bool) (rest : List Nat) :
    decodeBool (encodeBool b ++ rest) = some (b, rest) := by
  cases b <;> simp [encodeBool, decodeBool]

theorem signAll_ok (keyFor : SpendableOutput → Option KeyPair)
    (sigOf : SpendableOutput → KeyPair → List Nat)
    (ps : List SpendableOutput) (ws : List (List (List Nat)))
    (h : signAll keyFor sigOf ps = .ok ws) :
    ws.length = ps.length ∧ ∀ w ∈ ws, w ≠ [] := by
  induction ps generalizing ws with
  | nil =>
      rw [signAll] at h
      cases h
      simp
  | cons p ps ih =>
      rw [signAll] at h
      cases hk : keyFor p with
      | none => rw [hk] at h; cases h
      | some k =>
          rw [hk] at h
          cases hrec : signAll keyFor sigOf ps with
          | error e => rw [hrec] at h; cases h
          | ok ws2 =>
              rw [hrec] at h
              cases h
              obtain ⟨hl, hne⟩ := ih ws2 hrec
              refine ⟨by simp [hl], ?_⟩
              intro w hw
              rcases List.mem_cons.mp hw with hw | hw
              · subst hw; simp
              · exact hne w hw

theorem build_ok_inv (fee : Nat → Int) (instr : Option Instruction)
    (transfers : List TxOutput) (changeScript : List Opcode) (dust : Int)
    (keyFor : SpendableOutput → Option KeyPair)
    (sigOf : SpendableOutput → KeyPair → List Nat)
    (prevouts : List SpendableOutput) (r : BuildResult)
    (h : build fee instr transfers changeScript dust keyFor sigOf prevouts
          = .ok r) :
    ∃ sel ws,
      selectLoop fee ((transfers.map TxOutput.value).sum) prevouts [] 0
          = some sel ∧
      signAll keyFor sigOf sel = .ok ws ∧
      r.selected = sel ∧
      r.tx.inputs = sel.map SpendableOutput.toTxIn ∧
      r.tx.witnesses = ws ∧
      r.tx.outputs =
        embedOutputs instr ++ transfers ++
        (if dust ≤ (sel.map SpendableOutput.value).sum
              - (transfers.map TxOutput.value).sum - fee sel.length then
          [{ value := (sel.map SpendableOutput.value).sum
              - (transfers.map TxOutput.value).sum - fee sel.length,
             script := changeScript }]
         else []) ∧
      r.fee =
        (if dust ≤ (sel.map SpendableOutput.value).sum
              - (transfers.map TxOutput.value).sum - fee sel.length then
          fee sel.length
         else fee sel.length + ((sel.map SpendableOutput.value).sum
              - (transfers.map TxOutput.value).sum - fee sel.length)) := by
  simp only [build] at h
  split at h
  · cases h
  · split at h
    · cases h
    · cases h
      exact ⟨_, _, by assumption, by assumption, rfl, rfl, rfl, rfl, rfl⟩

/-- C1: for every successfully built transaction, the sum of input values
minus the sum of output values equals the fee exactly, in integer minor
units, with zero remainder error, for all fee rates and input counts. -/
theorem build_exact_fee_balance (fee : Nat → Int) (instr : Option Instruction)
    (transfers : List TxOutput) (changeScript : List Opcode) (dust : Int)
    (keyFor : SpendableOutput → Option KeyPair)
    (sigOf : SpendableOutput → KeyPair → List Nat)
    (prevouts : List SpendableOutput) (r : BuildResult)
    (h : build fee instr transfers changeScript dust keyFor sigOf prevouts
          = .ok r) :
    r.inputTotal - r.tx.outputTotal = r.fee := by
  obtain ⟨sel, ws, hsel, hsig, hrsel, hin, hwit, hout, hfee⟩ :=
    build_ok_inv fee instr transfers changeScript dust keyFor sigOf prevouts r h
  unfold BuildResult.inputTotal Transaction.outputTotal
  rw [hrsel, hout, hfee]
  by_cases hd : dust ≤ (sel.map SpendableOutput.value).sum
      - (transfers.map TxOutput.value).sum - fee sel.length
  · cases instr <;> · simp [hd, embedOutputs]; try ring
  · cases instr <;> · simp [hd, embedOutputs]; try ring

/-- C3: every transaction returned to a caller is either fully unsigned
(all witnesses empty) or fully signed (witness list length equals input
list length, all witnesses populated); the Builder never returns a
partially-signed transaction, and a failure yields a typed error carrying
no in-progress state. -/
theorem build_fully_signed_or_unsigned (fee : Nat → Int)
    (instr : Option Instruction) (transfers : List TxOutput)
    (changeScript : List Opcode) (dust : Int)
    (keyFor : SpendableOutput → Option KeyPair)
    (sigOf : SpendableOutput → KeyPair → List Nat)
    (prevouts : List SpendableOutput) (r : BuildResult)
    (h : build fee instr transfers changeScript dust keyFor sigOf prevouts
          = .ok r) :
    r.tx.FullyUnsigned ∨ r.tx.FullySigned := by
  obtain ⟨sel, ws, hsel, hsig, hrsel, hin, hwit, hout, hfee⟩ :=
    build_ok_inv fee instr transfers changeScript dust keyFor sigOf prevouts r h
  obtain ⟨hl, hne⟩ := signAll_ok keyFor sigOf sel ws hsig
  right
  constructor
  · rw [hwit, hin, List.length_map]; exact hl
  · rw [hwit]; exact hne

/-- C5: if the PrevoutProvider is exhausted (including the case where it
returns zero outputs) before the accumulated input value covers the
required funding plus the re-estimated fee, the build fails with
InsufficientFunds; the result does not depend on the signing functions, so
nothing is signed. -/
theorem build_insufficient_funds (fee : Nat → Int) (instr : Option Instruction)
    (transfers : List TxOutput) (changeScript : List Opcode) (dust : Int)
    (keyFor : SpendableOutput → Option KeyPair)
    (sigOf : SpendableOutput → KeyPair → List Nat)
    (prevouts : List SpendableOutput)
    (h : selectLoop fee ((transfers.map TxOutput.value).sum) prevouts [] 0
          = none) :
    build fee instr transfers changeScript dust keyFor sigOf prevouts
      = .error .insufficientFunds := by
  simp only [build]
  rw [h]

/-- C5 witness: a provider returning zero outputs makes the build fail with
InsufficientFunds. -/
theorem build_insufficient_funds_witness :
    build exampleFee none [] exampleChangeScript 3000 exampleKeyFor
      exampleSigOf [] = .error .insufficientFunds :=
  build_insufficient_funds exampleFee none [] exampleChangeScript 3000
    exampleKeyFor exampleSigOf [] rfl

/-- C6: for every transaction built from a non-transfer instruction, the
embedded-instruction output appears first in the output list, has value
zero, and its script is the provably-unspendable data-carrying form:
OP_RETURN (0x6a) followed by the pushed encoded instruction payload. -/
theorem build_embed_output_first (fee : Nat → Int) (i : Instruction)
    (transfers : List TxOutput) (changeScript : List Opcode) (dust : Int)
    (keyFor : SpendableOutput → Option KeyPair)
    (sigOf : SpendableOutput → KeyPair → List Nat)
    (prevouts : List SpendableOutput) (r : BuildResult)
    (h : build fee (some i) transfers changeScript dust keyFor sigOf prevouts
          = .ok r) :
    r.tx.outputs.head? =
      some { value := 0, script := embedScript (encodeInstruction i) } ∧
    scriptToBytes (embedScript (encodeInstruction i)) =
      0x6a :: (pushLen (encodeInstruction i).length ++ encodeInstruction i) := by
  obtain ⟨sel, ws, hsel, hsig, hrsel, hin, hwit, hout, hfee⟩ :=
    build_ok_inv fee (some i) transfers changeScript dust keyFor sigOf prevouts r h
  constructor
  · rw [hout]; rfl
  · simp [scriptToBytes, embedScript, Opcode.toBytes]

/-- C2: for every representable instruction x of every instruction kind,
decoding the encoding of x yields x again: decode(encode(x)) == x. -/
theorem instruction_decode_encode (x : Instruction) (h : x.Representable) :
    decodeInstruction (encodeInstruction x) = .ok x := by
  cases x with
  | vote d pid mid =>
      obtain ⟨hd, hp, hm⟩ := h
      have h1 : takeExact 32 (pid ++ mid) = some (pid, mid) := by
        rw [← hp]; exact takeExact_append pid mid
      have h2 : takeExact 32 mid = some (mid, []) := by
        rw [← hm]; simpa using takeExact_append mid []
      simp [encodeInstruction, decodeInstruction, h1, h2]
  | createToken sym nm dec lim dat tr mi =>
      obtain ⟨hs, hn, hdec, hlim⟩ := h
      have h1 := decodeBytes_encodeBytes sym
        (encodeBytes nm ++ (dec :: (encodeLE 8 lim ++
          (encodeBool dat ++ (encodeBool tr ++ encodeBool mi))))) hs
      have h2 := decodeBytes_encodeBytes nm
        (dec :: (encodeLE 8 lim ++
          (encodeBool dat ++ (encodeBool tr ++ encodeBool mi)))) hn
      have h3 := decodeLE_encodeLE 8 lim
        (encodeBool dat ++ (encodeBool tr ++ encodeBool mi))
        (by norm_num at hlim ⊢; omega)
      have h4 := decodeBool_encodeBool dat (encodeBool tr ++ encodeBool mi)
      have h5 := decodeBool_encodeBool tr (encodeBool mi)
      have h6 : decodeBool (encodeBool mi) = some (mi, []) := by
        simpa using decodeBool_encodeBool mi []
      simp [encodeInstruction, decodeInstruction, h1, h2, h3, h4, h5, h6]
  | setLoanScheme ra rt ident up =>
      obtain ⟨hra, hrt, hid, hup⟩ := h
      have h1 := decodeLE_encodeLE 4 ra
        (encodeLE 8 rt ++ (encodeBytes ident ++ encodeLE 8 up))
        (by norm_num at hra ⊢; omega)
      have h2 := decodeLE_encodeLE 8 rt
        (encodeBytes ident ++ encodeLE 8 up) (by norm_num at hrt ⊢; omega)
      have h3 := decodeBytes_encodeBytes ident (encodeLE 8 up) hid
      have h4 : decodeLE 8 (encodeLE 8 up) = some (up, []) := by
        simpa using decodeLE_encodeLE 8 up [] (by norm_num at hup ⊢; omega)
      simp [encodeInstruction, decodeInstruction, h1, h2, h3, h4]
  | createMasternode ty pkh =>
      obtain ⟨hty, hp⟩ := h
      have h1 : takeExact 20 pkh = some (pkh, []) := by
        rw [← hp]; simpa using takeExact_append pkh []
      simp [encodeInstruction, decodeInstruction, h1]

/-- C2 witness: the round trip evaluated at a concrete vote instruction. -/
theorem instruction_decode_encode_witness :
    decodeInstruction (encodeInstruction
      (.vote 1 (List.replicate 32 0) (List.replicate 32 1))) =
      .ok (.vote 1 (List.replicate 32 0) (List.replicate 32 1)) :=
  instruction_decode_encode _ (by decide)

/-- C1 witness: the exact fee balance evaluated on a concrete build from
one spendable output of 10.00000000 coins at a fee of 0.00050000. -/
theorem build_exact_fee_balance_witness :
    exampleResult.inputTotal - exampleResult.tx.outputTotal
      = exampleResult.fee :=
  build_exact_fee_balance exampleFee none [] exampleChangeScript 3000
    exampleKeyFor exampleSigOf [examplePrevout] exampleResult rfl

/-- C3 witness: the all-or-nothing signing invariant evaluated on a
concrete successful build. -/
theorem build_fully_signed_or_unsigned_witness :
    exampleResult.tx.FullyUnsigned ∨ exampleResult.tx.FullySigned :=
  build_fully_signed_or_unsigned exampleFee none [] exampleChangeScript 3000
    exampleKeyFor exampleSigOf [examplePrevout] exampleResult rfl

/-- C6 witness: the embedded-instruction output evaluated on a concrete
build carrying a vote instruction. -/
theorem build_embed_output_first_witness :
    exampleResultVote.tx.outputs.head? =
      some { value := 0, script := embedScript (encodeInstruction exampleVote) } ∧
    scriptToBytes (embedScript (encodeInstruction exampleVote)) =
      0x6a :: (pushLen (encodeInstruction exampleVote).length
        ++ encodeInstruction exampleVote) :=
  build_embed_output_first exampleFee exampleVote [] exampleChangeScript 3000
    exampleKeyFor exampleSigOf [examplePrevout] exampleResultVote rfl

/-- C4: when the fee-rate provider's node reports an error or no estimate,
the fixed default fee rate 0.00005000 is substituted; the function is
total, so the condition is never surfaced as a failure. -/
theorem estimate_fallback (r : SmartFeeEstimation)
    (h : r.feerate = none ∨ r.hasErrors = true) :
    CoinbaseFeeRateProvider.estimate r = 5 / 100000 := by
  rcases h with h | h
  · simp [CoinbaseFeeRateProvider.estimate, h, defaultFeeRate]
  · cases hf : r.feerate <;>
      simp [CoinbaseFeeRateProvider.estimate, hf, h, defaultFeeRate]

/-- C4 witness: the fallback evaluated on a no-estimate response. -/
theorem estimate_fallback_witness :
    CoinbaseFeeRateProvider.estimate { feerate := none, errors := none }
      = 5 / 100000 :=
  estimate_fallback { feerate := none, errors := none } (Or.inl rfl)

/-- C7: for every 20-byte public-key hash H, the canonical
single-signature locking script is OP_0 followed by the 20-byte data push
of H, and its encoding is exactly the 22-byte sequence [0x00, 0x14] + H. -/
theorem p2wpkh_script_bytes (pubKeyHash : List Nat)
    (h : pubKeyHash.length = 20) :
    scriptToBytes (CoinbaseEllipticPairProvider.script pubKeyHash)
      = 0x00 :: 0x14 :: pubKeyHash := by
  simp [CoinbaseEllipticPairProvider.script, scriptToBytes, Opcode.toBytes,
    pushLen, h]

/-- C7 witness: the locking-script encoding evaluated at a concrete
20-byte hash. -/
theorem p2wpkh_script_bytes_witness :
    scriptToBytes (CoinbaseEllipticPairProvider.script (List.replicate 20 7))
      = 0x00 :: 0x14 :: List.replicate 20 7 :=
  p2wpkh_script_bytes (List.replicate 20 7) (by simp)

/-- C8 counterexample: the prevout built by `mapPrevout` from a utxo row of
0.50000000 coins carries the value one half in whole-coin units — not an
integer count of minor units (it is not an integer at all). -/
theorem mapPrevout_not_minor_units :
    ¬ ∃ n : Int,
      (CoinbasePrevoutProvider.mapPrevout exampleH160 exampleUtxoHalf
        examplePubKey).value = (n : Rat) := by
  rintro ⟨n, h⟩
  have h2 : (1 : Rat) / 2 = (n : Rat) := h
  have h3 : (1 : Rat) = (n : Rat) * 2 := by rw [← h2]; ring
  have h4 : (1 : Int) = n * 2 := by exact_mod_cast h3
  omega

/-- C8 (amended): every SpendableOutput value entering the pipeline is the
exact decimal coin amount reported upstream; whenever that amount is a
count of minor units divided by 10^8, multiplying the value by 10^8
recovers that integer count exactly, so no arithmetic introduces
floating-point rounding drift. -/
theorem mapPrevout_exact_value (h160 : List Nat → List Nat) (utxo : Utxo)
    (pubKey : List Nat) (k : Int)
    (h : utxo.amount = (k : Rat) / 100000000) :
    (CoinbasePrevoutProvider.mapPrevout h160 utxo pubKey).value = utxo.amount ∧
    (CoinbasePrevoutProvider.mapPrevout h160 utxo pubKey).value * 100000000
      = (k : Rat) := by
  refine ⟨rfl, ?_⟩
  show utxo.amount * 100000000 = (k : Rat)
  rw [h]
  field_simp

/-- C8 witness: the exact-value property evaluated on the 0.50000000-coin
utxo, whose minor-unit count is 50000000. -/
theorem mapPrevout_exact_value_witness :
    (CoinbasePrevoutProvider.mapPrevout exampleH160 exampleUtxoHalf
      examplePubKey).value = exampleUtxoHalf.amount ∧
    (CoinbasePrevoutProvider.mapPrevout exampleH160 exampleUtxoHalf
      examplePubKey).value * 100000000 = ((50000000 : Int) : Rat) :=
  mapPrevout_exact_value exampleH160 exampleUtxoHalf examplePubKey 50000000
    (by norm_num [exampleUtxoHalf])

/-- C9: configuration validation admits exactly the three target networks
mainnet (production), testnet (public test) and regtest (local
development), rejects any other network identifier, and defaults to
regtest. -/
theorem api_network_validation :
    validateApiNetwork none = some "regtest" ∧
    validNetworks = ["regtest", "testnet", "mainnet"] ∧
    (∀ s, s ∈ validNetworks → validateApiNetwork (some s) = some s) ∧
    (∀ s, s ∉ validNetworks → validateApiNetwork (some s) = none) := by
  refine ⟨rfl, rfl, ?_, ?_⟩
  · intro s hs
    simp [validateApiNetwork, hs]
  · intro s hs
    simp [validateApiNetwork, hs]

/-- C9 witness: validation evaluated at the production network name. -/
theorem api_network_validation_witness :
    validateApiNetwork (some "mainnet") = some "mainnet" :=
  api_network_validation.2.2.1 "mainnet" (by simp [validNetworks])

/-- C10: for every minimum-balance argument, `collect(minBalance)` returns
exactly the same list of spendable outputs as `all()`: the minimum-value
parameter is ignored, so the caller receives every unspent output for the
signer's address regardless of the amount requested. -/
theorem collect_eq_all (wallet : WalletQuery → List Utxo)
    (bech32 : List Nat → String) (h160 : List Nat → List Nat)
    (pubKey : List Nat) (minBalance : Rat) :
    CoinbasePrevoutProvider.collect wallet bech32 h160 pubKey minBalance
      = CoinbasePrevoutProvider.all wallet bech32 h160 pubKey := rfl

end Jellyfish
